import Mathlib

/-!
# MetaQuery V1 governance validator - formal model

A shallow embedding of `src/metaquery/validator.py` (and the `Field` record
of `src/metaquery/loader.py`).  Python dictionaries that rely on insertion
order (`controls`, `duplicates`, `sources`) are modelled as association
lists; Python's `dict[str, Field]` catalog is an association list looked up
with `alookup`.  The only fallible operation inside `validate_v1` is the
subscript `fields_by_id[fid]` in the single-source grouping step (a missing
key raises `KeyError` in Python), so the embedding returns `Option`: `none`
is the `KeyError` outcome.  The ambient-clock read
(`datetime.now(timezone.utc).strftime(...)` in the `timestamp` default) is
modelled by the explicit parameter `now`: each distinct wall-clock reading
is a distinct value of `now`.
-/

namespace MetaQuery

/-- `Field` record from `loader.py`. -/
structure Field where
  field_id : String
  datatable_id : String
  sql_expr : String
  label : Option String := none
deriving Repr, DecidableEq

/-- One entry of the `warnings` list: the only warning shape the validator
emits is the `DUPLICATE_FIELDS` dictionary with keys
`code, field_id, count, message`. -/
structure Warning where
  code : String
  field_id : String
  count : Nat
  message : String
deriving Repr, DecidableEq

/-- The `error` dictionary attached on BLOCK.  Python builds a different
key set per error code; the union of all keys is modelled with `Option`
fields (`none` = key absent). -/
structure ErrorInfo where
  code : String
  message : String
  invalid_field_ids : Option (List String) := none
  unknown_field_ids : Option (List String) := none
  available_fields : Option (List String) := none
  sources_found : Option (List String) := none
  fields_by_source : Option (List (String × List String)) := none
  recommendation : Option String := none
  source : Option String := none
deriving Repr, DecidableEq

/-- The `ValidationResult` dataclass.  `timestamp` carries the injected
clock reading (the Python default factory reads the ambient UTC clock). -/
structure ValidationResult where
  metaquery_version : String := "0.1.0"
  schema_version : Nat := 1
  timestamp : String
  decision : String := "BLOCK"
  status : String := "ERROR"
  version : String := "V1"
  source : Option String := none
  fields_selected : List String := []
  controls : List (String × String) := []
  warnings : List Warning := []
  error : Option ErrorInfo := none
deriving Repr, DecidableEq

/-- Association-list lookup: `d.get(key)` / `d[key]` on an insertion-ordered
Python dict. -/
def alookup {α : Type} : List (String × α) → String → Option α
  | [], _ => none
  | (k, v) :: rest, key => if k = key then some v else alookup rest key

/-- Update the value at `key` with `f` if present (keeping its position, as
a Python dict does), otherwise append `(key, dflt)` at the end. -/
def upsert {α : Type} : List (String × α) → String → (α → α) → α → List (String × α)
  | [], key, _, dflt => [(key, dflt)]
  | (k, v) :: rest, key, f, dflt =>
    if k = key then (k, f v) :: rest else (k, v) :: upsert rest key f dflt

/-- Code-point comparison of char lists: Python's `<=` on strings. -/
def lexLe : List Char → List Char → Bool
  | [], _ => true
  | _ :: _, [] => false
  | a :: as, b :: bs => if a.toNat = b.toNat then lexLe as bs else decide (a.toNat < b.toNat)

/-- Python string comparison `s <= t` (lexicographic on code points). -/
def pyStrLe (s t : String) : Bool := lexLe s.data t.data

/-- Python `sorted` on a list of strings (stable, ascending). -/
def pySorted (l : List String) : List String :=
  l.insertionSort (fun a b => pyStrLe a b = true)

/-- Python `re.match(re.compile(r"^[c]+$"), s)` for a character class `c`:
true iff the string is a non-empty run of class characters, where `$` also
accepts a position just before one trailing newline. -/
def reMatchPlus (p : Char → Bool) (s : String) : Bool :=
  let cs := if s.data.getLast? = some (Char.ofNat 10) then s.data.dropLast else s.data
  !cs.isEmpty && cs.all p

/-- Character class `[A-Z0-9_]` of `SOURCE_RE`. -/
def isSourceChar (c : Char) : Bool :=
  (65 ≤ c.toNat && c.toNat ≤ 90) || (48 ≤ c.toNat && c.toNat ≤ 57) || c.toNat = 95

/-- Character class `[A-Za-z0-9_]` of `FIELD_ID_RE`. -/
def isFieldIdChar (c : Char) : Bool :=
  isSourceChar c || (97 ≤ c.toNat && c.toNat ≤ 122)

/-- `SOURCE_RE.match(s)` with `SOURCE_RE = re.compile(r"^[A-Z0-9_]+$")`. -/
def sourceReMatch (s : String) : Bool := reMatchPlus isSourceChar s

/-- `FIELD_ID_RE.match(s)` with `FIELD_ID_RE = re.compile(r"^[A-Za-z0-9_]+$")`. -/
def fieldIdReMatch (s : String) : Bool := reMatchPlus isFieldIdChar s

/-- The dedup loop of `validate_v1` (Rule 4).  The Python `seen` set always
equals the set of elements of `deduped`, so membership is tested on
`deduped` directly.  `duplicates` is the insertion-ordered
`dict[str, int]`; `duplicates.get(fid, 1) + 1` is the upsert with default
`2`. -/
def dedupLoop : List String → List String → List (String × Nat) →
    List String × List (String × Nat)
  | [], deduped, duplicates => (deduped, duplicates)
  | fid :: rest, deduped, duplicates =>
    if fid ∈ deduped then
      dedupLoop rest deduped (upsert duplicates fid (fun n => n + 1) 2)
    else
      dedupLoop rest (deduped ++ [fid]) duplicates

/-- The single-source grouping loop of `validate_v1` (Rule 2):
`sources.setdefault(src, []).append(fid)` over the deduped ids.  The
subscript `fields_by_id[fid]` raises `KeyError` on a missing id, modelled
as `none`. -/
def groupSources (fields_by_id : List (String × Field)) :
    List String → List (String × List String) → Option (List (String × List String))
  | [], acc => some acc
  | fid :: rest, acc =>
    match alookup fields_by_id fid with
    | none => none
    | some f => groupSources fields_by_id rest (upsert acc f.datatable_id (fun l => l ++ [fid]) [fid])

/-- `_finalize` from `validator.py`. -/
def finalize (audit : ValidationResult) : ValidationResult :=
  let a1 := if audit.decision ≠ "ALLOW" then { audit with decision := "BLOCK" } else audit
  if a1.status ≠ "OK" then { a1 with status := "ERROR" } else a1

/-- The duplicate warning built for one entry of the `duplicates` dict. -/
def mkDupWarning (p : String × Nat) : Warning :=
  { code := "DUPLICATE_FIELDS",
    field_id := p.1,
    count := p.2,
    message := "field_id \x27" ++ p.1 ++ "\x27 appears " ++ toString p.2 ++
      " times. Auto-deduplicated to single occurrence." }

/-- `validate_v1` from `validator.py`.  `now` is the injected clock reading
(see the module comment); the primary Python return value is the pair
`(deduped_selected_field_ids, audit)`. -/
def validate_v1 (fields_by_id : List (String × Field)) (selected_field_ids : List String)
    (metaquery_version now : String) : Option (List String × ValidationResult) :=
  let audit0 : ValidationResult :=
    { metaquery_version := metaquery_version,
      timestamp := now,
      fields_selected := selected_field_ids }
  if selected_field_ids.length = 0 then
    let err : ErrorInfo :=
      { code := "EMPTY_SELECTION",
        message := "No fields selected in selection.yml. At least one field is required." }
    some (selected_field_ids, finalize
      { audit0 with controls := [("non_empty_selection", "FAIL")], error := some err })
  else
    let invalid_ids := selected_field_ids.filter (fun fid => !fieldIdReMatch fid)
    if invalid_ids ≠ [] then
      let err : ErrorInfo :=
        { code := "INVALID_FIELD_ID",
          invalid_field_ids := some invalid_ids,
          message := "field_id must be alphanumeric + underscore only." }
      some (selected_field_ids, finalize
        { audit0 with
          controls := [("non_empty_selection", "PASS"), ("all_fields_exist", "FAIL")],
          error := some err })
    else
      let unknown := selected_field_ids.filter (fun fid => (alookup fields_by_id fid).isNone)
      if unknown ≠ [] then
        let err : ErrorInfo :=
          { code := "FIELD_NOT_FOUND",
            unknown_field_ids := some unknown,
            available_fields := some (pySorted (fields_by_id.map Prod.fst)),
            message := "field_id(s) not defined in fields.yml: " ++ String.intercalate ", " unknown }
        some (selected_field_ids, finalize
          { audit0 with
            controls := [("non_empty_selection", "PASS"), ("all_fields_exist", "FAIL")],
            error := some err })
      else
        let dd := dedupLoop selected_field_ids [] []
        let deduped := dd.1
        let duplicates := dd.2
        let warns := duplicates.map mkDupWarning
        match groupSources fields_by_id deduped [] with
        | none => none
        | some sources =>
          if sources.length ≠ 1 then
            let err : ErrorInfo :=
              { code := "MULTI_SOURCE_NOT_ALLOWED",
                sources_found := some (pySorted (sources.map Prod.fst)),
                fields_by_source := some sources,
                message := "Fields span multiple sources. V1 restriction: single-source queries only.",
                recommendation := some "Create a pre-validated view (V2) or define explicit joins (V3)." }
            some (deduped, finalize
              { audit0 with
                controls := [("non_empty_selection", "PASS"), ("all_fields_exist", "PASS"),
                  ("no_duplicates", "PASS"), ("single_source", "FAIL")],
                warnings := warns,
                error := some err })
          else
            match sources with
            | [] => none
            | (only_source, _) :: _ =>
              if !sourceReMatch only_source then
                let err : ErrorInfo :=
                  { code := "INVALID_SOURCE_NAME",
                    source := some only_source,
                    message := "datatable_id must match pattern ^[A-Z0-9_]+$" }
                some (deduped, finalize
                  { audit0 with
                    controls := [("non_empty_selection", "PASS"), ("all_fields_exist", "PASS"),
                      ("no_duplicates", "PASS"), ("single_source", "PASS"),
                      ("valid_source_name", "FAIL")],
                    warnings := warns,
                    error := some err })
              else
                some (deduped, finalize
                  { audit0 with
                    decision := "ALLOW",
                    status := "OK",
                    source := some only_source,
                    fields_selected := deduped,
                    controls := [("non_empty_selection", "PASS"), ("all_fields_exist", "PASS"),
                      ("no_duplicates", "PASS"), ("single_source", "PASS"),
                      ("valid_source_name", "PASS")],
                    warnings := warns })

/-- The deduplicated selection (first-occurrence order), as computed by the
dedup loop of `validate_v1`. -/
def dedup (sel : List String) : List String := (dedupLoop sel [] []).1

/-- The `duplicates` dict computed by the dedup loop of `validate_v1`. -/
def dupCounts (sel : List String) : List (String × Nat) := (dedupLoop sel [] []).2

/-- The source table of a field id under a catalog, when the id resolves. -/
def srcOf (fields_by_id : List (String × Field)) (fid : String) : Option String :=
  (alookup fields_by_id fid).map Field.datatable_id

/-- The test catalog of `tests/test_validator.py`. -/
def testCatalog : List (String × Field) :=
  [("model_id", { field_id := "model_id", datatable_id := "MODELS", sql_expr := "model_id", label := some "Model ID" }),
   ("run_date", { field_id := "run_date", datatable_id := "MODELS", sql_expr := "run_date", label := some "Run Date" }),
   ("pd", { field_id := "pd", datatable_id := "MODELS", sql_expr := "pd", label := some "Probability of Default" }),
   ("customer_age", { field_id := "customer_age", datatable_id := "CUSTOMERS", sql_expr := "age", label := some "Customer Age" })]

/-- A catalog that the repository loader would accept (its `load_fields`
only checks that `datatable_id` is a non-empty string) but whose single
source name fails `^[A-Z0-9_]+$`. -/
def lowerCatalog : List (String × Field) :=
  [("a", { field_id := "a", datatable_id := "models", sql_expr := "a" })]

example :
    (validate_v1 testCatalog ["model_id", "pd"] "0.1.0" "ts").map
      (fun p => (p.1, p.2.decision, p.2.source, p.2.status)) =
    some (["model_id", "pd"], "ALLOW", some "MODELS", "OK") := by decide

example :
    (validate_v1 testCatalog ["model_id", "customer_age"] "0.1.0" "ts").map
      (fun p => (p.2.decision, p.2.error.map ErrorInfo.code,
        p.2.error.map ErrorInfo.sources_found)) =
    some ("BLOCK", some "MULTI_SOURCE_NOT_ALLOWED", some (some ["CUSTOMERS", "MODELS"])) := by decide

example :
    (validate_v1 testCatalog ["model_id", "model_id", "run_date"] "0.1.0" "ts").map
      (fun p => (p.1, p.2.decision, p.2.warnings.map (fun w => (w.field_id, w.count)))) =
    some (["model_id", "run_date"], "ALLOW", [("model_id", 2)]) := by decide

example :
    (validate_v1 testCatalog [] "0.1.0" "ts").map
      (fun p => (p.1, p.2.decision, p.2.error.map ErrorInfo.code, p.2.controls)) =
    some ([], "BLOCK", some "EMPTY_SELECTION", [("non_empty_selection", "FAIL")]) := by decide

example :
    (validate_v1 testCatalog ["unknown_field", "model_id"] "0.1.0" "ts").map
      (fun p => (p.2.decision, p.2.error.map ErrorInfo.code)) =
    some ("BLOCK", some "FIELD_NOT_FOUND") := by decide

example :
    (validate_v1 testCatalog ["unknown_field", "model_id"] "0.1.0" "ts").map
      (fun p => (p.2.error.map ErrorInfo.unknown_field_ids,
        p.2.error.map ErrorInfo.available_fields)) =
    some (some (some ["unknown_field"]),
      some (some ["customer_age", "model_id", "pd", "run_date"])) := by decide

/-! ## Association-list lemmas -/

theorem alookup_upsert {α : Type} (l : List (String × α)) (k : String) (f : α → α) (d : α)
    (g : String) :
    alookup (upsert l k f d) g =
      if k = g then
        (match alookup l k with
         | some v => some (f v)
         | none => some d)
      else alookup l g := by
  induction l with
  | nil =>
    by_cases h : k = g <;> simp [upsert, alookup, h]
  | cons p rest ih =>
    obtain ⟨k0, v0⟩ := p
    by_cases h0 : k0 = k
    · subst h0
      by_cases h : k0 = g <;> simp [upsert, alookup, h]
    · by_cases h : k0 = g
      · subst h
        have hkg : ¬ k = k0 := fun h => h0 h.symm
        simp [upsert, alookup, h0, hkg]
      · simp [upsert, alookup, h0, h, ih]

theorem upsert_keys {α : Type} (l : List (String × α)) (k : String) (f : α → α) (d : α) :
    (upsert l k f d).map Prod.fst =
      if (alookup l k).isSome then l.map Prod.fst else l.map Prod.fst ++ [k] := by
  induction l with
  | nil => simp [upsert, alookup]
  | cons p rest ih =>
    obtain ⟨k0, v0⟩ := p
    by_cases h0 : k0 = k
    · subst h0; simp [upsert, alookup]
    · simp [upsert, alookup, h0, ih]
      by_cases h : (alookup rest k).isSome <;> simp [h]

theorem alookup_eq_none_iff {α : Type} (l : List (String × α)) (k : String) :
    alookup l k = none ↔ k ∉ l.map Prod.fst := by
  induction l with
  | nil => simp [alookup]
  | cons p rest ih =>
    obtain ⟨k0, v0⟩ := p
    by_cases h0 : k0 = k
    · subst h0; simp [alookup]
    · simp only [alookup, if_neg h0, List.map_cons, List.mem_cons, not_or]
      constructor
      · intro h
        exact ⟨fun he => h0 he.symm, ih.mp h⟩
      · intro h
        exact ih.mpr h.2

theorem alookup_isSome_iff {α : Type} (l : List (String × α)) (k : String) :
    (alookup l k).isSome = true ↔ k ∈ l.map Prod.fst := by
  constructor
  · intro h
    by_contra hmem
    rw [← alookup_eq_none_iff] at hmem
    simp [hmem] at h
  · intro h
    cases hl : alookup l k with
    | none => exact absurd ((alookup_eq_none_iff l k).mp hl) (by simp [h])
    | some v => rfl

theorem upsert_keys_nodup {α : Type} (l : List (String × α)) (k : String) (f : α → α) (d : α)
    (h : (l.map Prod.fst).Nodup) : ((upsert l k f d).map Prod.fst).Nodup := by
  rw [upsert_keys]
  by_cases hk : (alookup l k).isSome
  · simpa [hk] using h
  · have hmem : k ∉ l.map Prod.fst := by
      rw [← alookup_isSome_iff]
      simp [hk]
    simp [hk, List.nodup_append, h, hmem]

theorem mem_of_alookup_eq_some {α : Type} {l : List (String × α)} {k : String} {v : α}
    (h : alookup l k = some v) : (k, v) ∈ l := by
  induction l with
  | nil => simp [alookup] at h
  | cons p rest ih =>
    obtain ⟨k0, v0⟩ := p
    by_cases h0 : k0 = k
    · subst h0
      have h2 : v0 = v := by simpa [alookup] using h
      subst h2
      exact List.mem_cons_self _ _
    · simp only [alookup, if_neg h0] at h
      exact List.mem_cons_of_mem _ (ih h)

theorem alookup_eq_some_of_mem {α : Type} {l : List (String × α)} {k : String} {v : α}
    (hnd : (l.map Prod.fst).Nodup) (h : (k, v) ∈ l) : alookup l k = some v := by
  induction l with
  | nil => cases h
  | cons p rest ih =>
    obtain ⟨k0, v0⟩ := p
    simp only [List.map_cons, List.nodup_cons] at hnd
    rcases List.mem_cons.mp h with h1 | h1
    · rw [Prod.mk.injEq] at h1
      obtain ⟨he1, he2⟩ := h1
      subst he1; subst he2
      simp [alookup]
    · have hk : k0 ≠ k := by
        intro he; subst he
        exact hnd.1 (List.mem_map.mpr ⟨(k0, v), h1, rfl⟩)
      simp only [alookup, if_neg hk]
      exact ih hnd.2 h1

theorem mem_iff_alookup {α : Type} {l : List (String × α)} {k : String} {v : α}
    (hnd : (l.map Prod.fst).Nodup) : (k, v) ∈ l ↔ alookup l k = some v :=
  ⟨alookup_eq_some_of_mem hnd, mem_of_alookup_eq_some⟩

/-! ## Sorting lemmas: `pySorted` is an ascending, permuting sort -/

theorem lexLe_total : ∀ (a b : List Char), lexLe a b || lexLe b a
  | [], _ => by simp [lexLe]
  | _ :: _, [] => by simp [lexLe]
  | a :: as, b :: bs => by
    simp only [lexLe]
    by_cases hab : a.toNat = b.toNat
    · rw [if_pos hab, if_pos hab.symm]
      simpa using lexLe_total as bs
    · have hba : ¬ b.toNat = a.toNat := fun h => hab h.symm
      rw [if_neg hab, if_neg hba]
      simp; omega

theorem lexLe_trans : ∀ (a b c : List Char), lexLe a b → lexLe b c → lexLe a c
  | [], _, _ => by simp [lexLe]
  | _ :: _, [], _ => by simp [lexLe]
  | _ :: _, _ :: _, [] => by simp [lexLe]
  | a :: as, b :: bs, c :: cs => by
    simp only [lexLe]
    by_cases hab : a.toNat = b.toNat <;> by_cases hbc : b.toNat = c.toNat
    · rw [if_pos hab, if_pos hbc, if_pos (hab.trans hbc)]
      exact lexLe_trans as bs cs
    · rw [if_pos hab, if_neg hbc, if_neg (fun h => hbc (hab ▸ h))]
      intro _ h2; rw [hab]; exact h2
    · rw [if_neg hab, if_pos hbc, if_neg (fun h => hab (hbc ▸ h))]
      intro h1 _
      simpa [hbc] using h1
    · rw [if_neg hab, if_neg hbc]
      intro h1 h2
      simp at h1 h2
      by_cases hac : a.toNat = c.toNat
      · omega
      · rw [if_neg hac]; simp; omega

theorem pySorted_pairwise (l : List String) :
    (pySorted l).Pairwise (fun a b => pyStrLe a b = true) := by
  have h1 : IsTotal String (fun a b => pyStrLe a b = true) := by
    constructor; intro a b
    have h := lexLe_total a.data b.data
    simp only [pyStrLe]
    rcases Bool.or_eq_true_iff.mp h with h | h
    · exact Or.inl h
    · exact Or.inr h
  have h2 : IsTrans String (fun a b => pyStrLe a b = true) := by
    constructor; intro a b c hab hbc
    exact lexLe_trans a.data b.data c.data hab hbc
  exact List.sorted_insertionSort _ l

theorem pySorted_perm (l : List String) : List.Perm (pySorted l) l :=
  List.perm_insertionSort _ l

theorem mem_pySorted (l : List String) (x : String) : x ∈ pySorted l ↔ x ∈ l :=
  (pySorted_perm l).mem_iff

theorem pySorted_nodup {l : List String} (h : l.Nodup) : (pySorted l).Nodup :=
  ((pySorted_perm l).nodup_iff).mpr h

/-! ## Dedup-loop lemmas -/

theorem dedupLoop_fst_mem : ∀ (rest ded : List String) (dups : List (String × Nat)) (x : String),
    x ∈ (dedupLoop rest ded dups).1 ↔ (x ∈ ded ∨ x ∈ rest)
  | [], ded, dups, x => by simp [dedupLoop]
  | fid :: rest, ded, dups, x => by
    by_cases hmem : fid ∈ ded
    · rw [dedupLoop, if_pos hmem, dedupLoop_fst_mem]
      constructor
      · intro h; rcases h with h | h
        · exact Or.inl h
        · exact Or.inr (List.mem_cons_of_mem _ h)
      · intro h; rcases h with h | h
        · exact Or.inl h
        · rcases List.mem_cons.mp h with h | h
          · exact Or.inl (h ▸ hmem)
          · exact Or.inr h
    · rw [dedupLoop, if_neg hmem, dedupLoop_fst_mem]
      simp only [List.mem_append, List.mem_singleton, List.mem_cons]
      tauto

theorem dedupLoop_fst_nodup : ∀ (rest ded : List String) (dups : List (String × Nat)),
    ded.Nodup → (dedupLoop rest ded dups).1.Nodup
  | [], ded, dups, h => by simpa [dedupLoop] using h
  | fid :: rest, ded, dups, h => by
    by_cases hmem : fid ∈ ded
    · rw [dedupLoop, if_pos hmem]
      exact dedupLoop_fst_nodup rest ded _ h
    · rw [dedupLoop, if_neg hmem]
      exact dedupLoop_fst_nodup rest _ dups (by simp [List.nodup_append, h, hmem])

theorem dedupLoop_fst_append : ∀ (rest ded : List String) (dups : List (String × Nat)),
    ∃ e, (dedupLoop rest ded dups).1 = ded ++ e ∧ e.Sublist rest
  | [], ded, dups => ⟨[], by simp [dedupLoop]⟩
  | fid :: rest, ded, dups => by
    by_cases hmem : fid ∈ ded
    · rw [dedupLoop, if_pos hmem]
      obtain ⟨e, he, hs⟩ := dedupLoop_fst_append rest ded (upsert dups fid (fun n => n + 1) 2)
      exact ⟨e, he, hs.cons fid⟩
    · rw [dedupLoop, if_neg hmem]
      obtain ⟨e, he, hs⟩ := dedupLoop_fst_append rest (ded ++ [fid]) dups
      refine ⟨fid :: e, ?_, hs.cons₂ fid⟩
      rw [he, List.append_assoc]
      rfl

theorem dedupLoop_of_nodup : ∀ (rest ded : List String) (dups : List (String × Nat)),
    rest.Nodup → (∀ x ∈ rest, x ∉ ded) → dedupLoop rest ded dups = (ded ++ rest, dups)
  | [], ded, dups, _, _ => by simp [dedupLoop]
  | fid :: rest, ded, dups, hnd, hdisj => by
    have hmem : fid ∉ ded := hdisj fid (List.mem_cons_self _ _)
    rw [dedupLoop, if_neg hmem]
    rw [List.nodup_cons] at hnd
    rw [dedupLoop_of_nodup rest (ded ++ [fid]) dups hnd.2]
    · simp
    · intro x hx
      simp only [List.mem_append, List.mem_singleton]
      rintro (h | h)
      · exact hdisj x (List.mem_cons_of_mem _ hx) h
      · exact hnd.1 (h ▸ hx)

theorem dedupLoop_snd_spec : ∀ (rest proc ded : List String) (dups : List (String × Nat)),
    (∀ x, x ∈ ded ↔ x ∈ proc) →
    (dups.map Prod.fst).Nodup →
    (∀ fid, alookup dups fid =
      if 2 ≤ proc.count fid then some (proc.count fid) else none) →
    ((dedupLoop rest ded dups).2.map Prod.fst).Nodup ∧
    (∀ fid, alookup (dedupLoop rest ded dups).2 fid =
      if 2 ≤ (proc ++ rest).count fid then some ((proc ++ rest).count fid) else none)
  | [], proc, ded, dups, _, hnd, hlk => by
    simpa [dedupLoop] using ⟨hnd, hlk⟩
  | fid :: rest, proc, ded, dups, hm, hnd, hlk => by
    have hassoc : proc ++ fid :: rest = (proc ++ [fid]) ++ rest := by
      rw [List.append_assoc]; rfl
    rw [hassoc]
    by_cases hmem : fid ∈ ded
    · have hproc : fid ∈ proc := (hm fid).mp hmem
      have hcpos : 1 ≤ proc.count fid := List.count_pos_iff.mpr hproc
      rw [dedupLoop, if_pos hmem]
      apply dedupLoop_snd_spec rest (proc ++ [fid]) ded _
      · intro x
        rw [hm x]
        simp only [List.mem_append, List.mem_singleton]
        constructor
        · exact Or.inl
        · rintro (h | h)
          · exact h
          · exact h ▸ hproc
      · exact upsert_keys_nodup _ _ _ _ hnd
      · intro g
        rw [alookup_upsert]
        by_cases hg : fid = g
        · subst hg
          have hcnt : (proc ++ [fid]).count fid = proc.count fid + 1 := by
            simp [List.count_append]
          rw [if_pos rfl, hlk fid, hcnt]
          by_cases h2 : 2 ≤ proc.count fid
          · rw [if_pos h2, if_pos (by omega)]
          · have h1 : proc.count fid = 1 := by omega
            rw [if_neg h2, if_pos (by omega), h1]
        · have hg2 : ¬ g = fid := fun h => hg h.symm
          have hcnt : (proc ++ [fid]).count g = proc.count g := by
            simp [List.count_append, hg2]
          rw [if_neg hg, hlk g, hcnt]
    · have hproc : fid ∉ proc := fun h => hmem ((hm fid).mpr h)
      have hc0 : proc.count fid = 0 := by
        rw [List.count_eq_zero]
        exact hproc
      rw [dedupLoop, if_neg hmem]
      apply dedupLoop_snd_spec rest (proc ++ [fid]) (ded ++ [fid]) dups
      · intro x
        simp only [List.mem_append, List.mem_singleton, hm x]
      · exact hnd
      · intro g
        by_cases hg : fid = g
        · subst hg
          have hcnt : (proc ++ [fid]).count fid = 1 := by
            simp [List.count_append, hc0]
          rw [hlk fid, hcnt, hc0]
          simp
        · have hg2 : ¬ g = fid := fun h => hg h.symm
          have hcnt : (proc ++ [fid]).count g = proc.count g := by
            simp [List.count_append, hg2]
          rw [hlk g, hcnt]

theorem mem_dedup (sel : List String) (x : String) : x ∈ dedup sel ↔ x ∈ sel := by
  rw [dedup, dedupLoop_fst_mem]
  simp

theorem dedup_nodup (sel : List String) : (dedup sel).Nodup :=
  dedupLoop_fst_nodup sel [] [] List.nodup_nil

theorem dedup_sublist (sel : List String) : (dedup sel).Sublist sel := by
  obtain ⟨e, he, hs⟩ := dedupLoop_fst_append sel [] []
  rw [dedup, he]
  simpa using hs

theorem dedup_ne_nil {sel : List String} (h : sel ≠ []) : dedup sel ≠ [] := by
  obtain ⟨x, hx⟩ := List.exists_mem_of_ne_nil sel h
  intro hd
  exact (List.not_mem_nil x) (hd ▸ (mem_dedup sel x).mpr hx)

theorem dedup_of_nodup {sel : List String} (h : sel.Nodup) : dedup sel = sel := by
  rw [dedup, dedupLoop_of_nodup sel [] [] h (by simp)]
  simp

theorem dupCounts_of_nodup {sel : List String} (h : sel.Nodup) : dupCounts sel = [] := by
  rw [dupCounts, dedupLoop_of_nodup sel [] [] h (by simp)]

theorem dupCounts_keys_nodup (sel : List String) : ((dupCounts sel).map Prod.fst).Nodup :=
  (dedupLoop_snd_spec sel [] [] [] (by simp) (by simp) (by simp [alookup])).1

theorem alookup_dupCounts (sel : List String) (fid : String) :
    alookup (dupCounts sel) fid =
      if 2 ≤ sel.count fid then some (sel.count fid) else none := by
  have h := (dedupLoop_snd_spec sel [] [] [] (by simp) (by simp) (by simp [alookup])).2 fid
  simpa using h

/-! ## Grouping-loop lemmas -/

theorem upsert_ne_nil {α : Type} (l : List (String × α)) (k : String) (f : α → α) (d : α) :
    upsert l k f d ≠ [] := by
  cases l with
  | nil => simp [upsert]
  | cons p rest =>
    obtain ⟨k0, v0⟩ := p
    by_cases h : k0 = k <;> simp [upsert, h]

theorem upsert_length {α : Type} (l : List (String × α)) (k : String) (f : α → α) (d : α) :
    l.length ≤ (upsert l k f d).length := by
  induction l with
  | nil => simp [upsert]
  | cons p rest ih =>
    obtain ⟨k0, v0⟩ := p
    by_cases h : k0 = k <;> simp [upsert, h]
    omega

theorem groupSources_length (cat : List (String × Field)) :
    ∀ (ids : List String) (acc g : List (String × List String)),
      groupSources cat ids acc = some g → acc.length ≤ g.length
  | [], acc, g, h => by
    simp only [groupSources, Option.some_inj] at h
    rw [h]
  | fid :: rest, acc, g, h => by
    rw [groupSources] at h
    cases hf : alookup cat fid with
    | none => rw [hf] at h; cases h
    | some f =>
      rw [hf] at h
      calc acc.length ≤ (upsert acc f.datatable_id (fun l => l ++ [fid]) [fid]).length :=
            upsert_length _ _ _ _
        _ ≤ g.length := groupSources_length cat rest _ g h

theorem groupSources_ne_nil {cat : List (String × Field)} {ids : List String}
    {g : List (String × List String)} (hid : ids ≠ [])
    (h : groupSources cat ids [] = some g) : g ≠ [] := by
  cases ids with
  | nil => exact absurd rfl hid
  | cons fid rest =>
    rw [groupSources] at h
    cases hf : alookup cat fid with
    | none => rw [hf] at h; cases h
    | some f =>
      rw [hf] at h
      have h1 := groupSources_length cat rest _ g h
      have h2 := upsert_length ([] : List (String × List String)) f.datatable_id
        (fun l => l ++ [fid]) [fid]
      intro hg
      rw [hg] at h1
      simp [upsert] at h1

theorem groupSources_keys_nodup (cat : List (String × Field)) :
    ∀ (ids : List String) (acc g : List (String × List String)),
      (acc.map Prod.fst).Nodup → groupSources cat ids acc = some g →
      (g.map Prod.fst).Nodup
  | [], acc, g, hnd, h => by
    simp only [groupSources, Option.some_inj] at h
    rw [← h]; exact hnd
  | fid :: rest, acc, g, hnd, h => by
    rw [groupSources] at h
    cases hf : alookup cat fid with
    | none => rw [hf] at h; cases h
    | some f =>
      rw [hf] at h
      exact groupSources_keys_nodup cat rest _ g (upsert_keys_nodup _ _ _ _ hnd) h

theorem groupSources_mem_cat (cat : List (String × Field)) :
    ∀ (ids : List String) (acc g : List (String × List String)),
      groupSources cat ids acc = some g →
      ∀ fid ∈ ids, (alookup cat fid).isSome = true
  | [], acc, g, h => by simp
  | fid :: rest, acc, g, h => by
    rw [groupSources] at h
    cases hf : alookup cat fid with
    | none => rw [hf] at h; cases h
    | some f =>
      rw [hf] at h
      intro x hx
      rcases List.mem_cons.mp hx with h1 | h1
      · rw [h1, hf]; rfl
      · exact groupSources_mem_cat cat rest _ g h x h1

theorem groupSources_alookup (cat : List (String × Field)) :
    ∀ (ids : List String) (acc g : List (String × List String)) (src : String),
      groupSources cat ids acc = some g →
      alookup g src =
        match alookup acc src, ids.filter (fun fid => srcOf cat fid = some src) with
        | some fl, tail => some (fl ++ tail)
        | none, [] => none
        | none, fid :: tail => some (fid :: tail)
  | [], acc, g, src, h => by
    simp only [groupSources, Option.some_inj] at h
    subst h
    cases halk : alookup acc src <;> simp [List.filter_nil]
  | fid :: rest, acc, g, src, h => by
    rw [groupSources] at h
    cases hf : alookup cat fid with
    | none => rw [hf] at h; cases h
    | some f =>
      rw [hf] at h
      have ih := groupSources_alookup cat rest _ g src h
      have hsrcOf : srcOf cat fid = some f.datatable_id := by
        simp [srcOf, hf]
      by_cases hdt : f.datatable_id = src
      · rw [List.filter_cons_of_pos (by simp [hsrcOf, hdt])]
        rw [alookup_upsert, if_pos hdt, hdt] at ih
        cases halk : alookup acc src with
        | some fl =>
          rw [halk] at ih
          simp only at ih
          rw [ih]
          cases rest.filter (fun fid => srcOf cat fid = some src) <;> simp
        | none =>
          rw [halk] at ih
          simp only at ih
          rw [ih]
          cases rest.filter (fun fid => srcOf cat fid = some src) <;> simp
      · rw [List.filter_cons_of_neg (by simp [hsrcOf]; exact hdt)]
        rw [alookup_upsert, if_neg hdt] at ih
        exact ih

theorem groupSources_isSome (cat : List (String × Field)) :
    ∀ (ids : List String) (acc : List (String × List String)),
      (∀ fid ∈ ids, (alookup cat fid).isSome = true) →
      ∃ g, groupSources cat ids acc = some g
  | [], acc, _ => ⟨acc, rfl⟩
  | fid :: rest, acc, hall => by
    have h1 : (alookup cat fid).isSome = true := hall fid (List.mem_cons_self _ _)
    cases hf : alookup cat fid with
    | none => rw [hf] at h1; cases h1
    | some f =>
      rw [groupSources, hf]
      exact groupSources_isSome cat rest _
        (fun x hx => hall x (List.mem_cons_of_mem _ hx))

theorem groupSources_single (cat : List (String × Field)) (dt : String) :
    ∀ (ids cur : List String),
      (∀ fid ∈ ids, srcOf cat fid = some dt) →
      groupSources cat ids [(dt, cur)] = some [(dt, cur ++ ids)]
  | [], cur, _ => by simp [groupSources]
  | fid :: rest, cur, hall => by
    have h1 : srcOf cat fid = some dt := hall fid (List.mem_cons_self _ _)
    rw [srcOf] at h1
    cases hf : alookup cat fid with
    | none => rw [hf] at h1; cases h1
    | some f =>
      rw [hf] at h1
      have hdt : f.datatable_id = dt := by simpa using h1
      simp only [groupSources, hf]
      rw [hdt]
      have hupd : upsert [(dt, cur)] dt (fun l => l ++ [fid]) [fid] = [(dt, cur ++ [fid])] := by
        simp [upsert]
      rw [hupd, groupSources_single cat dt rest (cur ++ [fid])
        (fun x hx => hall x (List.mem_cons_of_mem _ hx))]
      simp

theorem groupSources_all_same {cat : List (String × Field)} {ids : List String} {dt : String}
    (hne : ids ≠ []) (hall : ∀ fid ∈ ids, srcOf cat fid = some dt) :
    groupSources cat ids [] = some [(dt, ids)] := by
  cases ids with
  | nil => exact absurd rfl hne
  | cons fid rest =>
    have h1 : srcOf cat fid = some dt := hall fid (List.mem_cons_self _ _)
    rw [srcOf] at h1
    cases hf : alookup cat fid with
    | none => rw [hf] at h1; cases h1
    | some f =>
      rw [hf] at h1
      have hdt : f.datatable_id = dt := by simpa using h1
      simp only [groupSources, hf]
      rw [hdt]
      have hupd : upsert ([] : List (String × List String)) dt (fun l => l ++ [fid]) [fid] =
          [(dt, [fid])] := by
        simp [upsert]
      rw [hupd, groupSources_single cat dt rest [fid]
        (fun x hx => hall x (List.mem_cons_of_mem _ hx))]
      simp

/-! ## Branch equations for `validate_v1` -/

theorem validate_v1_nil (cat : List (String × Field)) (mv now : String) :
    validate_v1 cat [] mv now = some ([],
      { metaquery_version := mv,
        timestamp := now,
        decision := "BLOCK",
        status := "ERROR",
        fields_selected := [],
        controls := [("non_empty_selection", "FAIL")],
        error := some
          { code := "EMPTY_SELECTION",
            message := "No fields selected in selection.yml. At least one field is required." } }) := by
  simp [validate_v1, finalize]

theorem validate_v1_invalid (cat : List (String × Field)) (sel : List String) (mv now : String)
    (h0 : sel ≠ [])
    (h1 : sel.filter (fun fid => !fieldIdReMatch fid) ≠ []) :
    validate_v1 cat sel mv now = some (sel,
      { metaquery_version := mv,
        timestamp := now,
        decision := "BLOCK",
        status := "ERROR",
        fields_selected := sel,
        controls := [("non_empty_selection", "PASS"), ("all_fields_exist", "FAIL")],
        error := some
          { code := "INVALID_FIELD_ID",
            invalid_field_ids := some (sel.filter (fun fid => !fieldIdReMatch fid)),
            message := "field_id must be alphanumeric + underscore only." } }) := by
  have h0' : ¬ sel.length = 0 := by simpa [List.length_eq_zero] using h0
  simp only [validate_v1]
  rw [if_neg h0', if_pos h1]
  simp [finalize]

theorem validate_v1_unknown (cat : List (String × Field)) (sel : List String) (mv now : String)
    (h0 : sel ≠ [])
    (h1 : sel.filter (fun fid => !fieldIdReMatch fid) = [])
    (h2 : sel.filter (fun fid => (alookup cat fid).isNone) ≠ []) :
    validate_v1 cat sel mv now = some (sel,
      { metaquery_version := mv,
        timestamp := now,
        decision := "BLOCK",
        status := "ERROR",
        fields_selected := sel,
        controls := [("non_empty_selection", "PASS"), ("all_fields_exist", "FAIL")],
        error := some
          { code := "FIELD_NOT_FOUND",
            unknown_field_ids := some (sel.filter (fun fid => (alookup cat fid).isNone)),
            available_fields := some (pySorted (cat.map Prod.fst)),
            message := "field_id(s) not defined in fields.yml: " ++
            String.intercalate ", " (sel.filter (fun fid => (alookup cat fid).isNone)) } }) := by
  have h0' : ¬ sel.length = 0 := by simpa [List.length_eq_zero] using h0
  simp only [validate_v1]
  rw [if_neg h0', if_neg (by simp [h1]), if_pos h2]
  simp [finalize]

theorem validate_v1_multi (cat : List (String × Field)) (sel : List String) (mv now : String)
    (srcs : List (String × List String))
    (h0 : sel ≠ [])
    (h1 : sel.filter (fun fid => !fieldIdReMatch fid) = [])
    (h2 : sel.filter (fun fid => (alookup cat fid).isNone) = [])
    (hg : groupSources cat (dedup sel) [] = some srcs)
    (hlen : srcs.length ≠ 1) :
    validate_v1 cat sel mv now = some (dedup sel,
      { metaquery_version := mv,
        timestamp := now,
        decision := "BLOCK",
        status := "ERROR",
        fields_selected := sel,
        controls := [("non_empty_selection", "PASS"), ("all_fields_exist", "PASS"),
          ("no_duplicates", "PASS"), ("single_source", "FAIL")],
        warnings := (dupCounts sel).map mkDupWarning,
        error := some
          { code := "MULTI_SOURCE_NOT_ALLOWED",
            sources_found := some (pySorted (srcs.map Prod.fst)),
            fields_by_source := some srcs,
            message := "Fields span multiple sources. V1 restriction: single-source queries only.",
            recommendation := some "Create a pre-validated view (V2) or define explicit joins (V3)." } }) := by
  have h0' : ¬ sel.length = 0 := by simpa [List.length_eq_zero] using h0
  rw [dedup] at hg
  simp only [validate_v1]
  rw [if_neg h0', if_neg (by simp [h1]), if_neg (by simp [h2]), hg]
  simp only [if_pos hlen]
  simp [finalize, dedup, dupCounts]

theorem validate_v1_badsource (cat : List (String × Field)) (sel : List String) (mv now : String)
    (dt : String) (fl : List String)
    (h0 : sel ≠ [])
    (h1 : sel.filter (fun fid => !fieldIdReMatch fid) = [])
    (h2 : sel.filter (fun fid => (alookup cat fid).isNone) = [])
    (hg : groupSources cat (dedup sel) [] = some [(dt, fl)])
    (hbad : sourceReMatch dt = false) :
    validate_v1 cat sel mv now = some (dedup sel,
      { metaquery_version := mv,
        timestamp := now,
        decision := "BLOCK",
        status := "ERROR",
        fields_selected := sel,
        controls := [("non_empty_selection", "PASS"), ("all_fields_exist", "PASS"),
          ("no_duplicates", "PASS"), ("single_source", "PASS"), ("valid_source_name", "FAIL")],
        warnings := (dupCounts sel).map mkDupWarning,
        error := some
          { code := "INVALID_SOURCE_NAME",
            source := some dt,
            message := "datatable_id must match pattern ^[A-Z0-9_]+$" } }) := by
  have h0' : ¬ sel.length = 0 := by simpa [List.length_eq_zero] using h0
  rw [dedup] at hg
  simp only [validate_v1]
  rw [if_neg h0', if_neg (by simp [h1]), if_neg (by simp [h2]), hg]
  simp only [List.length_cons, List.length_nil]
  rw [if_neg (by simp), hbad]
  simp [finalize, dedup, dupCounts]

theorem validate_v1_allow (cat : List (String × Field)) (sel : List String) (mv now : String)
    (dt : String) (fl : List String)
    (h0 : sel ≠ [])
    (h1 : sel.filter (fun fid => !fieldIdReMatch fid) = [])
    (h2 : sel.filter (fun fid => (alookup cat fid).isNone) = [])
    (hg : groupSources cat (dedup sel) [] = some [(dt, fl)])
    (hgood : sourceReMatch dt = true) :
    validate_v1 cat sel mv now = some (dedup sel,
      { metaquery_version := mv,
        timestamp := now,
        decision := "ALLOW",
        status := "OK",
        source := some dt,
        fields_selected := dedup sel,
        controls := [("non_empty_selection", "PASS"), ("all_fields_exist", "PASS"),
          ("no_duplicates", "PASS"), ("single_source", "PASS"), ("valid_source_name", "PASS")],
        warnings := (dupCounts sel).map mkDupWarning }) := by
  have h0' : ¬ sel.length = 0 := by simpa [List.length_eq_zero] using h0
  rw [dedup] at hg
  simp only [validate_v1]
  rw [if_neg h0', if_neg (by simp [h1]), if_neg (by simp [h2]), hg]
  simp only [List.length_cons, List.length_nil]
  rw [if_neg (by simp), hgood]
  simp [finalize, dedup, dupCounts]

/-- Exhaustive case split over the branch conditions of `validate_v1`. -/
theorem validate_v1_branches (cat : List (String × Field)) (sel : List String) :
    sel = [] ∨
    (sel ≠ [] ∧ sel.filter (fun fid => !fieldIdReMatch fid) ≠ []) ∨
    (sel ≠ [] ∧ sel.filter (fun fid => !fieldIdReMatch fid) = [] ∧
      sel.filter (fun fid => (alookup cat fid).isNone) ≠ []) ∨
    (∃ srcs, sel ≠ [] ∧ sel.filter (fun fid => !fieldIdReMatch fid) = [] ∧
      sel.filter (fun fid => (alookup cat fid).isNone) = [] ∧
      groupSources cat (dedup sel) [] = some srcs ∧ srcs.length ≠ 1) ∨
    (∃ dt fl, sel ≠ [] ∧ sel.filter (fun fid => !fieldIdReMatch fid) = [] ∧
      sel.filter (fun fid => (alookup cat fid).isNone) = [] ∧
      groupSources cat (dedup sel) [] = some [(dt, fl)] ∧ sourceReMatch dt = false) ∨
    (∃ dt fl, sel ≠ [] ∧ sel.filter (fun fid => !fieldIdReMatch fid) = [] ∧
      sel.filter (fun fid => (alookup cat fid).isNone) = [] ∧
      groupSources cat (dedup sel) [] = some [(dt, fl)] ∧ sourceReMatch dt = true) := by
  by_cases h0 : sel = []
  · exact Or.inl h0
  by_cases h1 : sel.filter (fun fid => !fieldIdReMatch fid) = []
  swap
  · exact Or.inr (Or.inl ⟨h0, h1⟩)
  by_cases h2 : sel.filter (fun fid => (alookup cat fid).isNone) = []
  swap
  · exact Or.inr (Or.inr (Or.inl ⟨h0, h1, h2⟩))
  have hall : ∀ fid ∈ dedup sel, (alookup cat fid).isSome = true := by
    intro fid hfid
    have hmem : fid ∈ sel := (mem_dedup sel fid).mp hfid
    have h3 := List.filter_eq_nil_iff.mp h2 fid hmem
    simp only [Option.isNone_iff_eq_none] at h3
    cases hl : alookup cat fid with
    | none => exact absurd (by simp [hl]) h3
    | some f => rfl
  obtain ⟨g, hg⟩ := groupSources_isSome cat (dedup sel) [] hall
  by_cases hlen : g.length = 1
  · obtain ⟨p, hp⟩ := List.length_eq_one.mp hlen
    obtain ⟨dt, fl⟩ := p
    subst hp
    cases hsm : sourceReMatch dt with
    | false =>
      exact Or.inr (Or.inr (Or.inr (Or.inr (Or.inl ⟨dt, fl, h0, h1, h2, hg, hsm⟩))))
    | true =>
      exact Or.inr (Or.inr (Or.inr (Or.inr (Or.inr ⟨dt, fl, h0, h1, h2, hg, hsm⟩))))
  · exact Or.inr (Or.inr (Or.inr (Or.inl ⟨g, h0, h1, h2, hg, hlen⟩)))

/-- `validate_v1` never hits the `KeyError` branch: the call always
returns a value, for every catalog and selection. -/
theorem validate_v1_isSome (cat : List (String × Field)) (sel : List String) (mv now : String) :
    (validate_v1 cat sel mv now).isSome = true := by
  rcases validate_v1_branches cat sel with hc | ⟨h0, h1⟩ | ⟨h0, h1, h2⟩ |
    ⟨srcs, h0, h1, h2, hg, hlen⟩ | ⟨dt, fl, h0, h1, h2, hg, hb⟩ | ⟨dt, fl, h0, h1, h2, hg, hgd⟩
  · subst hc; rw [validate_v1_nil]; rfl
  · rw [validate_v1_invalid cat sel mv now h0 h1]; rfl
  · rw [validate_v1_unknown cat sel mv now h0 h1 h2]; rfl
  · rw [validate_v1_multi cat sel mv now srcs h0 h1 h2 hg hlen]; rfl
  · rw [validate_v1_badsource cat sel mv now dt fl h0 h1 h2 hg hb]; rfl
  · rw [validate_v1_allow cat sel mv now dt fl h0 h1 h2 hg hgd]; rfl

/-- C8: in every audit record returned by `validate_v1`, the decision is
ALLOW exactly when the status is OK (and otherwise it is BLOCK with status
ERROR), an error object is attached exactly when the decision is BLOCK,
and the resolved source is set only on ALLOW. -/
theorem C8_audit_invariants (cat : List (String × Field)) (sel : List String) (mv now : String)
    (r : List String) (a : ValidationResult)
    (h : validate_v1 cat sel mv now = some (r, a)) :
    (a.decision = "ALLOW" ↔ a.status = "OK") ∧
    (a.decision ≠ "ALLOW" → a.decision = "BLOCK" ∧ a.status = "ERROR") ∧
    (a.error ≠ none ↔ a.decision = "BLOCK") ∧
    (a.source ≠ none → a.decision = "ALLOW") := by
  rcases validate_v1_branches cat sel with hc | ⟨h0, h1⟩ | ⟨h0, h1, h2⟩ |
    ⟨srcs, h0, h1, h2, hg, hlen⟩ | ⟨dt, fl, h0, h1, h2, hg, hb⟩ | ⟨dt, fl, h0, h1, h2, hg, hgd⟩
  · subst hc
    rw [validate_v1_nil] at h
    simp only [Option.some_inj, Prod.mk.injEq] at h
    obtain ⟨hr, ha⟩ := h
    subst ha
    simp
  · rw [validate_v1_invalid cat sel mv now h0 h1] at h
    simp only [Option.some_inj, Prod.mk.injEq] at h
    obtain ⟨hr, ha⟩ := h
    subst ha
    simp
  · rw [validate_v1_unknown cat sel mv now h0 h1 h2] at h
    simp only [Option.some_inj, Prod.mk.injEq] at h
    obtain ⟨hr, ha⟩ := h
    subst ha
    simp
  · rw [validate_v1_multi cat sel mv now srcs h0 h1 h2 hg hlen] at h
    simp only [Option.some_inj, Prod.mk.injEq] at h
    obtain ⟨hr, ha⟩ := h
    subst ha
    simp
  · rw [validate_v1_badsource cat sel mv now dt fl h0 h1 h2 hg hb] at h
    simp only [Option.some_inj, Prod.mk.injEq] at h
    obtain ⟨hr, ha⟩ := h
    subst ha
    simp
  · rw [validate_v1_allow cat sel mv now dt fl h0 h1 h2 hg hgd] at h
    simp only [Option.some_inj, Prod.mk.injEq] at h
    obtain ⟨hr, ha⟩ := h
    subst ha
    simp

/-- C8 witness at a concrete input. -/
theorem C8_witness :
    ∃ r a, validate_v1 testCatalog ["model_id"] "0.1.0" "t" = some (r, a) ∧
      ((a.decision = "ALLOW" ↔ a.status = "OK") ∧
       (a.decision ≠ "ALLOW" → a.decision = "BLOCK" ∧ a.status = "ERROR") ∧
       (a.error ≠ none ↔ a.decision = "BLOCK") ∧
       (a.source ≠ none → a.decision = "ALLOW")) := by
  obtain ⟨p, hp⟩ := Option.isSome_iff_exists.mp
    (validate_v1_isSome testCatalog ["model_id"] "0.1.0" "t")
  have hv2 : validate_v1 testCatalog ["model_id"] "0.1.0" "t" = some (p.1, p.2) := by
    rw [hp]
  exact ⟨p.1, p.2, hv2,
    C8_audit_invariants testCatalog ["model_id"] "0.1.0" "t" p.1 p.2 hv2⟩

/-- C2: the checks run in a fixed order and the first failure
short-circuits the call: the recorded controls are always one of the five
prefixes of the full chain, every control before the last one is PASS
(so at most one FAIL, and only in last position), and the single error
object is attached exactly when some control failed.  (Per the spec, the
field-id-syntax check and the field-existence check share the control key
`all_fields_exist`, so a fully passing run records five entries.) -/
theorem C2_first_failure_short_circuits (cat : List (String × Field)) (sel : List String)
    (mv now : String) (r : List String) (a : ValidationResult)
    (h : validate_v1 cat sel mv now = some (r, a)) :
    (a.controls = [("non_empty_selection", "FAIL")] ∨
     a.controls = [("non_empty_selection", "PASS"), ("all_fields_exist", "FAIL")] ∨
     a.controls = [("non_empty_selection", "PASS"), ("all_fields_exist", "PASS"),
       ("no_duplicates", "PASS"), ("single_source", "FAIL")] ∨
     a.controls = [("non_empty_selection", "PASS"), ("all_fields_exist", "PASS"),
       ("no_duplicates", "PASS"), ("single_source", "PASS"), ("valid_source_name", "FAIL")] ∨
     a.controls = [("non_empty_selection", "PASS"), ("all_fields_exist", "PASS"),
       ("no_duplicates", "PASS"), ("single_source", "PASS"), ("valid_source_name", "PASS")]) ∧
    (∀ p ∈ a.controls.dropLast, p.2 = "PASS") ∧
    (a.error ≠ none ↔ "FAIL" ∈ a.controls.map Prod.snd) := by
  rcases validate_v1_branches cat sel with hc | ⟨h0, h1⟩ | ⟨h0, h1, h2⟩ |
    ⟨srcs, h0, h1, h2, hg, hlen⟩ | ⟨dt, fl, h0, h1, h2, hg, hb⟩ | ⟨dt, fl, h0, h1, h2, hg, hgd⟩
  · subst hc
    rw [validate_v1_nil] at h
    simp only [Option.some_inj, Prod.mk.injEq] at h
    obtain ⟨hr, ha⟩ := h
    subst ha
    refine ⟨by simp, by simp, by simp⟩
  · rw [validate_v1_invalid cat sel mv now h0 h1] at h
    simp only [Option.some_inj, Prod.mk.injEq] at h
    obtain ⟨hr, ha⟩ := h
    subst ha
    refine ⟨by simp, ?_, by simp⟩
    intro p hp
    simp at hp
    rw [hp]
  · rw [validate_v1_unknown cat sel mv now h0 h1 h2] at h
    simp only [Option.some_inj, Prod.mk.injEq] at h
    obtain ⟨hr, ha⟩ := h
    subst ha
    refine ⟨by simp, ?_, by simp⟩
    intro p hp
    simp at hp
    rw [hp]
  · rw [validate_v1_multi cat sel mv now srcs h0 h1 h2 hg hlen] at h
    simp only [Option.some_inj, Prod.mk.injEq] at h
    obtain ⟨hr, ha⟩ := h
    subst ha
    refine ⟨by simp, ?_, by simp⟩
    intro p hp
    simp at hp
    rcases hp with hp | hp | hp <;> rw [hp]
  · rw [validate_v1_badsource cat sel mv now dt fl h0 h1 h2 hg hb] at h
    simp only [Option.some_inj, Prod.mk.injEq] at h
    obtain ⟨hr, ha⟩ := h
    subst ha
    refine ⟨by simp, ?_, by simp⟩
    intro p hp
    simp at hp
    rcases hp with hp | hp | hp | hp <;> rw [hp]
  · rw [validate_v1_allow cat sel mv now dt fl h0 h1 h2 hg hgd] at h
    simp only [Option.some_inj, Prod.mk.injEq] at h
    obtain ⟨hr, ha⟩ := h
    subst ha
    refine ⟨by simp, ?_, by simp⟩
    intro p hp
    simp at hp
    rcases hp with hp | hp | hp | hp <;> rw [hp]

/-- C2 witness at a concrete input whose second check fails. -/
theorem C2_witness :
    ∃ r a, validate_v1 testCatalog ["bad-id"] "0.1.0" "t" = some (r, a) ∧
      ((a.controls = [("non_empty_selection", "FAIL")] ∨
        a.controls = [("non_empty_selection", "PASS"), ("all_fields_exist", "FAIL")] ∨
        a.controls = [("non_empty_selection", "PASS"), ("all_fields_exist", "PASS"),
          ("no_duplicates", "PASS"), ("single_source", "FAIL")] ∨
        a.controls = [("non_empty_selection", "PASS"), ("all_fields_exist", "PASS"),
          ("no_duplicates", "PASS"), ("single_source", "PASS"), ("valid_source_name", "FAIL")] ∨
        a.controls = [("non_empty_selection", "PASS"), ("all_fields_exist", "PASS"),
          ("no_duplicates", "PASS"), ("single_source", "PASS"), ("valid_source_name", "PASS")]) ∧
       (∀ p ∈ a.controls.dropLast, p.2 = "PASS") ∧
       (a.error ≠ none ↔ "FAIL" ∈ a.controls.map Prod.snd)) := by
  obtain ⟨p, hp⟩ := Option.isSome_iff_exists.mp
    (validate_v1_isSome testCatalog ["bad-id"] "0.1.0" "t")
  have hv2 : validate_v1 testCatalog ["bad-id"] "0.1.0" "t" = some (p.1, p.2) := by rw [hp]
  exact ⟨p.1, p.2, hv2,
    C2_first_failure_short_circuits testCatalog ["bad-id"] "0.1.0" "t" p.1 p.2 hv2⟩

/-- C10: on BLOCK the audit keeps the raw input selection in
`fields_selected`, while the primary returned list is the raw selection
for the first three error codes and the deduplicated selection for the
two later ones. -/
theorem C10_block_return_values (cat : List (String × Field)) (sel : List String)
    (mv now : String) (r : List String) (a : ValidationResult)
    (h : validate_v1 cat sel mv now = some (r, a)) (hb : a.decision = "BLOCK") :
    a.fields_selected = sel ∧
    ∃ e, a.error = some e ∧
      ((e.code = "EMPTY_SELECTION" ∨ e.code = "INVALID_FIELD_ID" ∨
        e.code = "FIELD_NOT_FOUND") → r = sel) ∧
      ((e.code = "MULTI_SOURCE_NOT_ALLOWED" ∨ e.code = "INVALID_SOURCE_NAME") →
        r = dedup sel) := by
  rcases validate_v1_branches cat sel with hc | ⟨h0, h1⟩ | ⟨h0, h1, h2⟩ |
    ⟨srcs, h0, h1, h2, hg, hlen⟩ | ⟨dt, fl, h0, h1, h2, hg, hb2⟩ | ⟨dt, fl, h0, h1, h2, hg, hgd⟩
  · subst hc
    rw [validate_v1_nil] at h
    simp only [Option.some_inj, Prod.mk.injEq] at h
    obtain ⟨hr, ha⟩ := h
    subst ha
    refine ⟨rfl, ?_⟩
    refine ⟨_, rfl, fun _ => hr.symm, ?_⟩
    intro hcode
    simp at hcode
  · rw [validate_v1_invalid cat sel mv now h0 h1] at h
    simp only [Option.some_inj, Prod.mk.injEq] at h
    obtain ⟨hr, ha⟩ := h
    subst ha
    refine ⟨rfl, ?_⟩
    refine ⟨_, rfl, fun _ => hr.symm, ?_⟩
    intro hcode
    simp at hcode
  · rw [validate_v1_unknown cat sel mv now h0 h1 h2] at h
    simp only [Option.some_inj, Prod.mk.injEq] at h
    obtain ⟨hr, ha⟩ := h
    subst ha
    refine ⟨rfl, ?_⟩
    refine ⟨_, rfl, fun _ => hr.symm, ?_⟩
    intro hcode
    simp at hcode
  · rw [validate_v1_multi cat sel mv now srcs h0 h1 h2 hg hlen] at h
    simp only [Option.some_inj, Prod.mk.injEq] at h
    obtain ⟨hr, ha⟩ := h
    subst ha
    refine ⟨rfl, ?_⟩
    refine ⟨_, rfl, ?_, fun _ => hr.symm⟩
    intro hcode
    simp at hcode
  · rw [validate_v1_badsource cat sel mv now dt fl h0 h1 h2 hg hb2] at h
    simp only [Option.some_inj, Prod.mk.injEq] at h
    obtain ⟨hr, ha⟩ := h
    subst ha
    refine ⟨rfl, ?_⟩
    refine ⟨_, rfl, ?_, fun _ => hr.symm⟩
    intro hcode
    simp at hcode
  · rw [validate_v1_allow cat sel mv now dt fl h0 h1 h2 hg hgd] at h
    simp only [Option.some_inj, Prod.mk.injEq] at h
    obtain ⟨hr, ha⟩ := h
    subst ha
    simp at hb

/-- C10 witness at a concrete input (the FIELD_NOT_FOUND branch). -/
theorem C10_witness :
    ∃ r a, validate_v1 testCatalog ["unknown_field", "model_id"] "0.1.0" "t" = some (r, a) ∧
      a.decision = "BLOCK" ∧
      (a.fields_selected = ["unknown_field", "model_id"] ∧
       ∃ e, a.error = some e ∧
         ((e.code = "EMPTY_SELECTION" ∨ e.code = "INVALID_FIELD_ID" ∨
           e.code = "FIELD_NOT_FOUND") → r = ["unknown_field", "model_id"]) ∧
         ((e.code = "MULTI_SOURCE_NOT_ALLOWED" ∨ e.code = "INVALID_SOURCE_NAME") →
           r = dedup ["unknown_field", "model_id"])) := by
  obtain ⟨p, hp⟩ := Option.isSome_iff_exists.mp
    (validate_v1_isSome testCatalog ["unknown_field", "model_id"] "0.1.0" "t")
  have hv2 : validate_v1 testCatalog ["unknown_field", "model_id"] "0.1.0" "t" =
      some (p.1, p.2) := by rw [hp]
  have hb : p.2.decision = "BLOCK" := by
    have := hv2
    rw [show validate_v1 testCatalog ["unknown_field", "model_id"] "0.1.0" "t" =
      some (["unknown_field", "model_id"],
        { metaquery_version := "0.1.0", timestamp := "t", decision := "BLOCK",
          status := "ERROR", fields_selected := ["unknown_field", "model_id"],
          controls := [("non_empty_selection", "PASS"), ("all_fields_exist", "FAIL")],
          error := some
            { code := "FIELD_NOT_FOUND",
              unknown_field_ids := some ["unknown_field"],
              available_fields := some ["customer_age", "model_id", "pd", "run_date"],
              message := "field_id(s) not defined in fields.yml: unknown_field" } })
      from by decide] at this
    simp only [Option.some_inj, Prod.mk.injEq] at this
    rw [← this.2]
  exact ⟨p.1, p.2, hv2, hb,
    C10_block_return_values testCatalog ["unknown_field", "model_id"] "0.1.0" "t" p.1 p.2 hv2 hb⟩

/-- C6: a non-empty selection containing a syntactically invalid id is
blocked with code INVALID_FIELD_ID, recorded under the shared control key
`all_fields_exist`, and `invalid_field_ids` is exactly the offending ids
in input order with multiplicity. -/
theorem C6_invalid_field_id (cat : List (String × Field)) (sel : List String) (mv now : String)
    (h0 : sel ≠ []) (hbad : ∃ fid ∈ sel, fieldIdReMatch fid = false) :
    ∃ a, validate_v1 cat sel mv now = some (sel, a) ∧
      a.decision = "BLOCK" ∧
      a.controls = [("non_empty_selection", "PASS"), ("all_fields_exist", "FAIL")] ∧
      ∃ e, a.error = some e ∧ e.code = "INVALID_FIELD_ID" ∧
        ∃ l, e.invalid_field_ids = some l ∧
          l.Sublist sel ∧
          (∀ fid, fid ∈ l ↔ fid ∈ sel ∧ fieldIdReMatch fid = false) ∧
          (∀ fid, l.count fid = if fieldIdReMatch fid = false then sel.count fid else 0) := by
  have h1 : sel.filter (fun fid => !fieldIdReMatch fid) ≠ [] := by
    obtain ⟨fid, hmem, hf⟩ := hbad
    exact List.ne_nil_of_mem (List.mem_filter.mpr ⟨hmem, by simp [hf]⟩)
  rw [validate_v1_invalid cat sel mv now h0 h1]
  refine ⟨_, rfl, rfl, rfl, _, rfl, rfl, _, rfl, List.filter_sublist sel, ?_, ?_⟩
  · intro fid
    rw [List.mem_filter]
    simp
  · intro fid
    by_cases hf : fieldIdReMatch fid = false
    · rw [if_pos hf]
      exact List.count_filter (by simp [hf])
    · rw [if_neg hf]
      rw [List.count_eq_zero]
      intro hmem
      have := (List.mem_filter.mp hmem).2
      simp at this
      exact hf this

/-- C6 witness at a concrete input. -/
theorem C6_witness :
    ∃ a, validate_v1 testCatalog ["bad-id", "model_id", "bad-id"] "0.1.0" "t" =
        some (["bad-id", "model_id", "bad-id"], a) ∧
      a.decision = "BLOCK" ∧
      a.controls = [("non_empty_selection", "PASS"), ("all_fields_exist", "FAIL")] ∧
      ∃ e, a.error = some e ∧ e.code = "INVALID_FIELD_ID" ∧
        ∃ l, e.invalid_field_ids = some l ∧
          l.Sublist ["bad-id", "model_id", "bad-id"] ∧
          (∀ fid, fid ∈ l ↔ fid ∈ ["bad-id", "model_id", "bad-id"] ∧
            fieldIdReMatch fid = false) ∧
          (∀ fid, l.count fid = if fieldIdReMatch fid = false then
            (["bad-id", "model_id", "bad-id"] : List String).count fid else 0) :=
  C6_invalid_field_id testCatalog ["bad-id", "model_id", "bad-id"] "0.1.0" "t"
    (by decide) ⟨"bad-id", by decide, by decide⟩

/-- The warnings list built from the `duplicates` dict contains exactly
one entry per id occurring at least twice, carrying the total occurrence
count. -/
theorem mem_dupWarnings (sel : List String) (w : Warning) :
    w ∈ (dupCounts sel).map mkDupWarning ↔
      ∃ fid, 2 ≤ sel.count fid ∧ w = mkDupWarning (fid, sel.count fid) := by
  constructor
  · intro hw
    obtain ⟨p, hp, he⟩ := List.mem_map.mp hw
    obtain ⟨fid, c⟩ := p
    have halk := alookup_eq_some_of_mem (dupCounts_keys_nodup sel) hp
    rw [alookup_dupCounts] at halk
    by_cases h2 : 2 ≤ sel.count fid
    · rw [if_pos h2, Option.some_inj] at halk
      exact ⟨fid, h2, by rw [← he, halk]⟩
    · rw [if_neg h2] at halk
      cases halk
  · rintro ⟨fid, h2, he⟩
    apply List.mem_map.mpr
    refine ⟨(fid, sel.count fid), ?_, he.symm⟩
    apply mem_of_alookup_eq_some
    rw [alookup_dupCounts, if_pos h2]

theorem dupWarnings_keys_nodup (sel : List String) :
    (((dupCounts sel).map mkDupWarning).map Warning.field_id).Nodup := by
  have hmap : ((dupCounts sel).map mkDupWarning).map Warning.field_id =
      (dupCounts sel).map Prod.fst := by
    rw [List.map_map]
    rfl
  rw [hmap]
  exact dupCounts_keys_nodup sel

/-- C5: whenever the dedup step is reached, the `no_duplicates` control is
recorded PASS, and the warnings are exactly one DUPLICATE_FIELDS entry per
id occurring more than once, whose count is that id's total number of
occurrences; a duplicate-free selection yields no warnings. -/
theorem C5_dedup_always_passes (cat : List (String × Field)) (sel : List String)
    (mv now : String) (r : List String) (a : ValidationResult)
    (h : validate_v1 cat sel mv now = some (r, a))
    (h0 : sel ≠ [])
    (hsyn : ∀ fid ∈ sel, fieldIdReMatch fid = true)
    (hex : ∀ fid ∈ sel, (alookup cat fid).isSome = true) :
    ("no_duplicates", "PASS") ∈ a.controls ∧
    (∀ w ∈ a.warnings, w.code = "DUPLICATE_FIELDS" ∧ 2 ≤ sel.count w.field_id ∧
      w.count = sel.count w.field_id) ∧
    (a.warnings.map Warning.field_id).Nodup ∧
    (∀ fid, (∃ w ∈ a.warnings, w.field_id = fid) ↔ 2 ≤ sel.count fid) ∧
    (sel.Nodup → a.warnings = []) := by
  have h1 : sel.filter (fun fid => !fieldIdReMatch fid) = [] :=
    List.filter_eq_nil_iff.mpr (fun fid hm => by simp [hsyn fid hm])
  have h2 : sel.filter (fun fid => (alookup cat fid).isNone) = [] := by
    apply List.filter_eq_nil_iff.mpr
    intro fid hm
    have hs := hex fid hm
    cases halk : alookup cat fid with
    | none => rw [halk] at hs; cases hs
    | some f => simp [halk]
  have hwprops : ∀ (b : ValidationResult),
      b.warnings = (dupCounts sel).map mkDupWarning →
      (∀ w ∈ b.warnings, w.code = "DUPLICATE_FIELDS" ∧ 2 ≤ sel.count w.field_id ∧
        w.count = sel.count w.field_id) ∧
      (b.warnings.map Warning.field_id).Nodup ∧
      (∀ fid, (∃ w ∈ b.warnings, w.field_id = fid) ↔ 2 ≤ sel.count fid) ∧
      (sel.Nodup → b.warnings = []) := by
    intro b hb
    rw [hb]
    refine ⟨?_, dupWarnings_keys_nodup sel, ?_, ?_⟩
    · intro w hw
      obtain ⟨fid, hc, he⟩ := (mem_dupWarnings sel w).mp hw
      subst he
      exact ⟨rfl, hc, rfl⟩
    · intro fid
      constructor
      · rintro ⟨w, hw, hfid⟩
        obtain ⟨fid2, hc, he⟩ := (mem_dupWarnings sel w).mp hw
        subst he
        simp only [mkDupWarning] at hfid
        rw [← hfid]
        exact hc
      · intro hc
        exact ⟨mkDupWarning (fid, sel.count fid),
          (mem_dupWarnings sel _).mpr ⟨fid, hc, rfl⟩, rfl⟩
    · intro hnd
      rw [dupCounts_of_nodup hnd]
      rfl
  rcases validate_v1_branches cat sel with hc | ⟨h0b, h1b⟩ | ⟨h0b, h1b, h2b⟩ |
    ⟨srcs, h0b, h1b, h2b, hg, hlen⟩ | ⟨dt, fl, h0b, h1b, h2b, hg, hb⟩ |
    ⟨dt, fl, h0b, h1b, h2b, hg, hgd⟩
  · exact absurd hc h0
  · exact absurd h1 h1b
  · exact absurd h2 h2b
  · rw [validate_v1_multi cat sel mv now srcs h0b h1b h2b hg hlen] at h
    simp only [Option.some_inj, Prod.mk.injEq] at h
    obtain ⟨hr, ha⟩ := h
    subst ha
    exact ⟨by simp, hwprops _ rfl⟩
  · rw [validate_v1_badsource cat sel mv now dt fl h0b h1b h2b hg hb] at h
    simp only [Option.some_inj, Prod.mk.injEq] at h
    obtain ⟨hr, ha⟩ := h
    subst ha
    exact ⟨by simp, hwprops _ rfl⟩
  · rw [validate_v1_allow cat sel mv now dt fl h0b h1b h2b hg hgd] at h
    simp only [Option.some_inj, Prod.mk.injEq] at h
    obtain ⟨hr, ha⟩ := h
    subst ha
    exact ⟨by simp, hwprops _ rfl⟩

/-- C5 witness at a concrete input with one duplicated id. -/
theorem C5_witness :
    ∃ r a, validate_v1 testCatalog ["model_id", "model_id", "run_date"] "0.1.0" "t" =
        some (r, a) ∧
      (("no_duplicates", "PASS") ∈ a.controls ∧
       (∀ w ∈ a.warnings, w.code = "DUPLICATE_FIELDS" ∧
         2 ≤ (["model_id", "model_id", "run_date"] : List String).count w.field_id ∧
         w.count = (["model_id", "model_id", "run_date"] : List String).count w.field_id) ∧
       (a.warnings.map Warning.field_id).Nodup ∧
       (∀ fid, (∃ w ∈ a.warnings, w.field_id = fid) ↔
         2 ≤ (["model_id", "model_id", "run_date"] : List String).count fid) ∧
       ((["model_id", "model_id", "run_date"] : List String).Nodup → a.warnings = [])) := by
  obtain ⟨p, hp⟩ := Option.isSome_iff_exists.mp
    (validate_v1_isSome testCatalog ["model_id", "model_id", "run_date"] "0.1.0" "t")
  have hv2 : validate_v1 testCatalog ["model_id", "model_id", "run_date"] "0.1.0" "t" =
      some (p.1, p.2) := by rw [hp]
  exact ⟨p.1, p.2, hv2,
    C5_dedup_always_passes testCatalog ["model_id", "model_id", "run_date"] "0.1.0" "t"
      p.1 p.2 hv2 (by decide) (by decide) (by decide)⟩

/-- C9: the catalog subscript in the grouping step can never raise: the
call always returns, and whenever the grouping step is reached (non-empty
selection, every id present) it yields a non-empty grouping, so
`len(sources) != 1` can only fire with two or more sources. -/
theorem C9_grouping_lookups_safe (cat : List (String × Field)) (sel : List String)
    (mv now : String) :
    (validate_v1 cat sel mv now).isSome = true ∧
    (sel ≠ [] → (∀ fid ∈ sel, (alookup cat fid).isSome = true) →
      ∃ g, groupSources cat (dedup sel) [] = some g ∧ g ≠ [] ∧
        (g.length ≠ 1 ↔ 2 ≤ g.length)) := by
  refine ⟨validate_v1_isSome cat sel mv now, ?_⟩
  intro h0 hex
  have hall : ∀ fid ∈ dedup sel, (alookup cat fid).isSome = true :=
    fun fid hf => hex fid ((mem_dedup sel fid).mp hf)
  obtain ⟨g, hg⟩ := groupSources_isSome cat (dedup sel) [] hall
  have hne := groupSources_ne_nil (dedup_ne_nil h0) hg
  refine ⟨g, hg, hne, ?_⟩
  have hlen : 1 ≤ g.length := by
    cases g with
    | nil => exact absurd rfl hne
    | cons a t => simp
  omega

/-- C9 witness at a concrete input. -/
theorem C9_witness :
    (validate_v1 testCatalog ["model_id", "customer_age"] "0.1.0" "t").isSome = true ∧
    (∃ g, groupSources testCatalog (dedup ["model_id", "customer_age"]) [] = some g ∧
      g ≠ [] ∧ (g.length ≠ 1 ↔ 2 ≤ g.length)) :=
  ⟨(C9_grouping_lookups_safe testCatalog ["model_id", "customer_age"] "0.1.0" "t").1,
   (C9_grouping_lookups_safe testCatalog ["model_id", "customer_age"] "0.1.0" "t").2
     (by decide) (by decide)⟩

theorem groupSources_alookup_nil {cat : List (String × Field)} {ids : List String}
    {g : List (String × List String)} (h : groupSources cat ids [] = some g) (src : String) :
    alookup g src =
      match ids.filter (fun fid => srcOf cat fid = some src) with
      | [] => none
      | fid :: tail => some (fid :: tail) := by
  have h2 := groupSources_alookup cat ids [] g src h
  cases hf : ids.filter (fun fid => srcOf cat fid = some src) with
  | nil =>
    rw [hf] at h2
    simpa [alookup] using h2
  | cons a t =>
    rw [hf] at h2
    simpa [alookup] using h2

/-- The keys of the grouping are exactly the sources hit by the grouped
ids. -/
theorem groupSources_key_mem {cat : List (String × Field)} {ids : List String}
    {g : List (String × List String)} (h : groupSources cat ids [] = some g) (s : String) :
    s ∈ g.map Prod.fst ↔ ∃ fid ∈ ids, srcOf cat fid = some s := by
  rw [← alookup_isSome_iff]
  have h2 := groupSources_alookup_nil h s
  cases hf : ids.filter (fun fid => srcOf cat fid = some s) with
  | nil =>
    rw [hf] at h2
    simp only at h2
    rw [h2]
    simp only [Option.isSome_none, Bool.false_eq_true, false_iff]
    rintro ⟨fid, hm, hsome⟩
    have hnone := List.filter_eq_nil_iff.mp hf fid hm
    simp [hsome] at hnone
  | cons a t =>
    rw [hf] at h2
    simp only at h2
    rw [h2]
    simp only [Option.isSome_some, true_iff]
    have ha : a ∈ ids.filter (fun fid => srcOf cat fid = some s) := by
      rw [hf]
      exact List.mem_cons_self _ _
    have := List.mem_filter.mp ha
    exact ⟨a, this.1, by simpa using this.2⟩

theorem two_ne_mem_le_length {α : Type} {l : List α} {a b : α}
    (ha : a ∈ l) (hb : b ∈ l) (hne : a ≠ b) : 2 ≤ l.length := by
  cases l with
  | nil => cases ha
  | cons x t =>
    cases t with
    | nil =>
      simp at ha hb
      subst ha; subst hb
      exact absurd rfl hne
    | cons y u => simp only [List.length_cons]; omega

/-- C7: a selection whose accepted ids span at least two sources is
blocked with MULTI_SOURCE_NOT_ALLOWED; `sources_found` is the distinct
source ids sorted ascending and `fields_by_source` groups the deduped ids
by source in first-encounter order. -/
theorem C7_multi_source_blocked (cat : List (String × Field)) (sel : List String)
    (mv now : String)
    (hsyn : ∀ fid ∈ sel, fieldIdReMatch fid = true)
    (hex : ∀ fid ∈ sel, (alookup cat fid).isSome = true)
    (hdist : ∃ f1 ∈ sel, ∃ f2 ∈ sel, srcOf cat f1 ≠ srcOf cat f2) :
    ∃ a, validate_v1 cat sel mv now = some (dedup sel, a) ∧
      a.decision = "BLOCK" ∧
      ∃ e, a.error = some e ∧ e.code = "MULTI_SOURCE_NOT_ALLOWED" ∧
        (∃ sf, e.sources_found = some sf ∧
          sf.Pairwise (fun x y => pyStrLe x y = true) ∧ sf.Nodup ∧
          (∀ s, s ∈ sf ↔ ∃ fid ∈ sel, srcOf cat fid = some s)) ∧
        (∃ fbs, e.fields_by_source = some fbs ∧
          (fbs.map Prod.fst).Nodup ∧
          (∀ s, s ∈ fbs.map Prod.fst ↔ ∃ fid ∈ sel, srcOf cat fid = some s) ∧
          (∀ s fl, (s, fl) ∈ fbs →
            fl = (dedup sel).filter (fun fid => srcOf cat fid = some s))) := by
  obtain ⟨f1, hf1, f2, hf2, hne⟩ := hdist
  have h0 : sel ≠ [] := List.ne_nil_of_mem hf1
  have h1 : sel.filter (fun fid => !fieldIdReMatch fid) = [] :=
    List.filter_eq_nil_iff.mpr (fun fid hm => by simp [hsyn fid hm])
  have h2 : sel.filter (fun fid => (alookup cat fid).isNone) = [] := by
    apply List.filter_eq_nil_iff.mpr
    intro fid hm
    have hs := hex fid hm
    cases halk : alookup cat fid with
    | none => rw [halk] at hs; cases hs
    | some f => simp [halk]
  have hall : ∀ fid ∈ dedup sel, (alookup cat fid).isSome = true :=
    fun fid hf => hex fid ((mem_dedup sel fid).mp hf)
  obtain ⟨g, hg⟩ := groupSources_isSome cat (dedup sel) [] hall
  have hkeys : ∀ s, s ∈ g.map Prod.fst ↔ ∃ fid ∈ sel, srcOf cat fid = some s := by
    intro s
    rw [groupSources_key_mem hg s]
    constructor
    · rintro ⟨fid, hm, hs⟩
      exact ⟨fid, (mem_dedup sel fid).mp hm, hs⟩
    · rintro ⟨fid, hm, hs⟩
      exact ⟨fid, (mem_dedup sel fid).mpr hm, hs⟩
  obtain ⟨v1, hv1⟩ : ∃ v, srcOf cat f1 = some v := by
    have hs := hex f1 hf1
    cases halk : alookup cat f1 with
    | none => rw [halk] at hs; cases hs
    | some f => exact ⟨f.datatable_id, by simp [srcOf, halk]⟩
  obtain ⟨v2, hv2⟩ : ∃ v, srcOf cat f2 = some v := by
    have hs := hex f2 hf2
    cases halk : alookup cat f2 with
    | none => rw [halk] at hs; cases hs
    | some f => exact ⟨f.datatable_id, by simp [srcOf, halk]⟩
  have hvne : v1 ≠ v2 := by
    intro hv
    rw [hv1, hv2, hv] at hne
    exact hne rfl
  have hmem1 : v1 ∈ g.map Prod.fst := (hkeys v1).mpr ⟨f1, hf1, hv1⟩
  have hmem2 : v2 ∈ g.map Prod.fst := (hkeys v2).mpr ⟨f2, hf2, hv2⟩
  have hglen : 2 ≤ g.length := by
    have := two_ne_mem_le_length hmem1 hmem2 hvne
    simpa using this
  have hlen : g.length ≠ 1 := by omega
  rw [validate_v1_multi cat sel mv now g h0 h1 h2 hg hlen]
  have hknd : (g.map Prod.fst).Nodup := groupSources_keys_nodup cat (dedup sel) [] g (by simp) hg
  refine ⟨_, rfl, rfl, _, rfl, rfl, ⟨pySorted (g.map Prod.fst), rfl, ?_, ?_, ?_⟩, ⟨g, rfl, hknd, hkeys, ?_⟩⟩
  · exact pySorted_pairwise (g.map Prod.fst)
  · exact pySorted_nodup hknd
  · intro s
    rw [mem_pySorted]
    exact hkeys s
  · intro s fl hmem
    have halk := alookup_eq_some_of_mem hknd hmem
    have h3 := groupSources_alookup_nil hg s
    cases hf : (dedup sel).filter (fun fid => srcOf cat fid = some s) with
    | nil =>
      rw [hf] at h3
      simp only at h3
      rw [halk] at h3
      cases h3
    | cons a t =>
      rw [hf] at h3
      simp only at h3
      rw [halk] at h3
      simp only [Option.some_inj] at h3
      rw [h3]

/-- C7 witness at a concrete input spanning two sources. -/
theorem C7_witness :
    ∃ a, validate_v1 testCatalog ["model_id", "customer_age"] "0.1.0" "t" =
        some (dedup ["model_id", "customer_age"], a) ∧
      a.decision = "BLOCK" ∧
      ∃ e, a.error = some e ∧ e.code = "MULTI_SOURCE_NOT_ALLOWED" ∧
        (∃ sf, e.sources_found = some sf ∧
          sf.Pairwise (fun x y => pyStrLe x y = true) ∧ sf.Nodup ∧
          (∀ s, s ∈ sf ↔ ∃ fid ∈ ["model_id", "customer_age"],
            srcOf testCatalog fid = some s)) ∧
        (∃ fbs, e.fields_by_source = some fbs ∧
          (fbs.map Prod.fst).Nodup ∧
          (∀ s, s ∈ fbs.map Prod.fst ↔ ∃ fid ∈ ["model_id", "customer_age"],
            srcOf testCatalog fid = some s) ∧
          (∀ s fl, (s, fl) ∈ fbs →
            fl = (dedup ["model_id", "customer_age"]).filter
              (fun fid => srcOf testCatalog fid = some s))) :=
  C7_multi_source_blocked testCatalog ["model_id", "customer_age"] "0.1.0" "t"
    (by decide) (by decide)
    ⟨"model_id", by decide, "customer_age", by decide, by decide⟩

/-- C1 (amended): a non-empty selection of syntactically valid ids that
all resolve to one `datatable_id` which itself matches `^[A-Z0-9_]+$` is
allowed, with the deduplicated first-occurrence-order selection as
`fields_selected` and as the primary returned value, and the shared
source as `source`. -/
theorem C1_allow_single_source (cat : List (String × Field)) (sel : List String)
    (mv now dt : String)
    (h0 : sel ≠ [])
    (hsyn : ∀ fid ∈ sel, fieldIdReMatch fid = true)
    (hsrc : ∀ fid ∈ sel, srcOf cat fid = some dt)
    (hgood : sourceReMatch dt = true) :
    ∃ a, validate_v1 cat sel mv now = some (dedup sel, a) ∧
      a.decision = "ALLOW" ∧ a.status = "OK" ∧ a.source = some dt ∧
      a.fields_selected = dedup sel ∧
      (dedup sel).Nodup ∧ (dedup sel).Sublist sel ∧ (∀ x, x ∈ dedup sel ↔ x ∈ sel) := by
  have h1 : sel.filter (fun fid => !fieldIdReMatch fid) = [] :=
    List.filter_eq_nil_iff.mpr (fun fid hm => by simp [hsyn fid hm])
  have h2 : sel.filter (fun fid => (alookup cat fid).isNone) = [] := by
    apply List.filter_eq_nil_iff.mpr
    intro fid hm
    have hs := hsrc fid hm
    rw [srcOf] at hs
    cases halk : alookup cat fid with
    | none => rw [halk] at hs; cases hs
    | some f => simp [halk]
  have hg : groupSources cat (dedup sel) [] = some [(dt, dedup sel)] :=
    groupSources_all_same (dedup_ne_nil h0)
      (fun fid hf => hsrc fid ((mem_dedup sel fid).mp hf))
  rw [validate_v1_allow cat sel mv now dt (dedup sel) h0 h1 h2 hg hgood]
  exact ⟨_, rfl, rfl, rfl, rfl, rfl, dedup_nodup sel, dedup_sublist sel, mem_dedup sel⟩

/-- C1 witness at a concrete input with a duplicate. -/
theorem C1_witness :
    ∃ a, validate_v1 testCatalog ["model_id", "model_id", "pd"] "0.1.0" "t" =
        some (dedup ["model_id", "model_id", "pd"], a) ∧
      a.decision = "ALLOW" ∧ a.status = "OK" ∧ a.source = some "MODELS" ∧
      a.fields_selected = dedup ["model_id", "model_id", "pd"] ∧
      (dedup ["model_id", "model_id", "pd"]).Nodup ∧
      (dedup ["model_id", "model_id", "pd"]).Sublist ["model_id", "model_id", "pd"] ∧
      (∀ x, x ∈ dedup ["model_id", "model_id", "pd"] ↔
        x ∈ (["model_id", "model_id", "pd"] : List String)) :=
  C1_allow_single_source testCatalog ["model_id", "model_id", "pd"] "0.1.0" "t" "MODELS"
    (by decide) (by decide) (by decide) (by decide)

/-- C1 counterexample to the claim as stated: a catalog the loader
accepts whose shared `datatable_id` is lower case satisfies every
hypothesis of the claim (non-empty, syntactically valid, present, single
source), yet the call returns BLOCK with INVALID_SOURCE_NAME rather than
ALLOW. -/
theorem C1_counterexample :
    ((["a"] : List String) ≠ []) ∧
    (∀ fid ∈ (["a"] : List String), fieldIdReMatch fid = true) ∧
    (∀ fid ∈ (["a"] : List String), srcOf lowerCatalog fid = some "models") ∧
    (validate_v1 lowerCatalog ["a"] "0.1.0" "t").map
      (fun p => (p.1, p.2.decision, p.2.status, p.2.error.map ErrorInfo.code)) =
      some (["a"], "BLOCK", "ERROR", some "INVALID_SOURCE_NAME") := by
  refine ⟨by decide, by decide, by decide, by decide⟩

/-- C4: re-running the validator on the deduplicated output of an ALLOW
run returns the same list and the same audit record, now with an empty
warnings list (no further duplicates) and the same source. -/
theorem C4_idempotent (cat : List (String × Field)) (sel : List String) (mv now : String)
    (D : List String) (a : ValidationResult)
    (h : validate_v1 cat sel mv now = some (D, a))
    (hd : a.decision = "ALLOW") :
    validate_v1 cat D mv now = some (D, { a with warnings := [] }) := by
  rcases validate_v1_branches cat sel with hc | ⟨h0, h1⟩ | ⟨h0, h1, h2⟩ |
    ⟨srcs, h0, h1, h2, hg, hlen⟩ | ⟨dt, fl, h0, h1, h2, hg, hb⟩ | ⟨dt, fl, h0, h1, h2, hg, hgd⟩
  · subst hc
    rw [validate_v1_nil] at h
    simp only [Option.some_inj, Prod.mk.injEq] at h
    obtain ⟨hr, ha⟩ := h
    subst ha
    simp at hd
  · rw [validate_v1_invalid cat sel mv now h0 h1] at h
    simp only [Option.some_inj, Prod.mk.injEq] at h
    obtain ⟨hr, ha⟩ := h
    subst ha
    simp at hd
  · rw [validate_v1_unknown cat sel mv now h0 h1 h2] at h
    simp only [Option.some_inj, Prod.mk.injEq] at h
    obtain ⟨hr, ha⟩ := h
    subst ha
    simp at hd
  · rw [validate_v1_multi cat sel mv now srcs h0 h1 h2 hg hlen] at h
    simp only [Option.some_inj, Prod.mk.injEq] at h
    obtain ⟨hr, ha⟩ := h
    subst ha
    simp at hd
  · rw [validate_v1_badsource cat sel mv now dt fl h0 h1 h2 hg hb] at h
    simp only [Option.some_inj, Prod.mk.injEq] at h
    obtain ⟨hr, ha⟩ := h
    subst ha
    simp at hd
  · rw [validate_v1_allow cat sel mv now dt fl h0 h1 h2 hg hgd] at h
    simp only [Option.some_inj, Prod.mk.injEq] at h
    obtain ⟨hr, ha⟩ := h
    subst hr
    subst ha
    have hDnd : (dedup sel).Nodup := dedup_nodup sel
    have hD0 : dedup sel ≠ [] := dedup_ne_nil h0
    have hD1 : (dedup sel).filter (fun fid => !fieldIdReMatch fid) = [] :=
      List.filter_eq_nil_iff.mpr
        (fun fid hm => List.filter_eq_nil_iff.mp h1 fid ((mem_dedup sel fid).mp hm))
    have hD2 : (dedup sel).filter (fun fid => (alookup cat fid).isNone) = [] :=
      List.filter_eq_nil_iff.mpr
        (fun fid hm => List.filter_eq_nil_iff.mp h2 fid ((mem_dedup sel fid).mp hm))
    have hDg : groupSources cat (dedup (dedup sel)) [] = some [(dt, fl)] := by
      rw [dedup_of_nodup hDnd]
      exact hg
    rw [validate_v1_allow cat (dedup sel) mv now dt fl hD0 hD1 hD2 hDg hgd]
    simp [dedup_of_nodup hDnd, dupCounts_of_nodup hDnd]

/-- C4 witness: a concrete ALLOW run with a duplicate, re-run on its
deduplicated output. -/
theorem C4_witness :
    validate_v1 testCatalog ["model_id", "pd"] "0.1.0" "t" =
      some (["model_id", "pd"],
        { ({ metaquery_version := "0.1.0",
             timestamp := "t",
             decision := "ALLOW",
             status := "OK",
             source := some "MODELS",
             fields_selected := ["model_id", "pd"],
             controls := [("non_empty_selection", "PASS"), ("all_fields_exist", "PASS"),
               ("no_duplicates", "PASS"), ("single_source", "PASS"),
               ("valid_source_name", "PASS")],
             warnings := [mkDupWarning ("model_id", 2)] } : ValidationResult) with
          warnings := [] }) :=
  C4_idempotent testCatalog ["model_id", "model_id", "pd"] "0.1.0" "t" ["model_id", "pd"]
    { metaquery_version := "0.1.0",
      timestamp := "t",
      decision := "ALLOW",
      status := "OK",
      source := some "MODELS",
      fields_selected := ["model_id", "pd"],
      controls := [("non_empty_selection", "PASS"), ("all_fields_exist", "PASS"),
        ("no_duplicates", "PASS"), ("single_source", "PASS"),
        ("valid_source_name", "PASS")],
      warnings := [mkDupWarning ("model_id", 2)] }
    (by decide) rfl

/-- C3: the audit record genuinely depends on the ambient clock reading
(modelled as the injected `now` value), but only in its `timestamp`
field: with the timestamp erased, two runs on the same catalog and
selection are equal whatever the two clock readings were.  The embedding
itself is a pure function of `(catalog, selection, version, clock)`. -/
theorem C3_timestamp_from_ambient_clock :
    (validate_v1 testCatalog ["model_id"] "0.1.0" "2024-01-01T00:00:00Z" ≠
      validate_v1 testCatalog ["model_id"] "0.1.0" "2024-01-01T00:00:01Z") ∧
    (∀ (cat : List (String × Field)) (sel : List String) (mv t1 t2 : String),
      (validate_v1 cat sel mv t1).map (fun p => (p.1, { p.2 with timestamp := "" })) =
      (validate_v1 cat sel mv t2).map (fun p => (p.1, { p.2 with timestamp := "" }))) := by
  constructor
  · decide
  · intro cat sel mv t1 t2
    rcases validate_v1_branches cat sel with hc | ⟨h0, h1⟩ | ⟨h0, h1, h2⟩ |
      ⟨srcs, h0, h1, h2, hg, hlen⟩ | ⟨dt, fl, h0, h1, h2, hg, hb⟩ |
      ⟨dt, fl, h0, h1, h2, hg, hgd⟩
    · subst hc
      rw [validate_v1_nil cat mv t1, validate_v1_nil cat mv t2]
      rfl
    · rw [validate_v1_invalid cat sel mv t1 h0 h1, validate_v1_invalid cat sel mv t2 h0 h1]
      rfl
    · rw [validate_v1_unknown cat sel mv t1 h0 h1 h2,
        validate_v1_unknown cat sel mv t2 h0 h1 h2]
      rfl
    · rw [validate_v1_multi cat sel mv t1 srcs h0 h1 h2 hg hlen,
        validate_v1_multi cat sel mv t2 srcs h0 h1 h2 hg hlen]
      rfl
    · rw [validate_v1_badsource cat sel mv t1 dt fl h0 h1 h2 hg hb,
        validate_v1_badsource cat sel mv t2 dt fl h0 h1 h2 hg hb]
      rfl
    · rw [validate_v1_allow cat sel mv t1 dt fl h0 h1 h2 hg hgd,
        validate_v1_allow cat sel mv t2 dt fl h0 h1 h2 hg hgd]
      rfl

end MetaQuery
